import Mathlib

/-!
Verification of the HLS playlist manager in `ext/hls/gstm3u8playlist.c`.

Shallow embedding conventions:
* `GQueue` / `GList` become `List`; the head of `entries` is the oldest entry,
  matching `g_queue_pop_head` / `g_queue_push_tail`.
* `GFile *` handles are opaque identifiers modelled as `ℕ`; `g_object_ref`
  transfers one owning reference, which we model by listing the handle in the
  returned eviction list.
* `gfloat` durations become `ℚ` (exact arithmetic in place of 32-bit floats).
  The renderer divides durations by `GST_SECOND`, so the duration field is a
  nanosecond count, as in upstream GStreamer.
* C casts `(guint)`/`(gint)` on nonnegative floats truncate; we model them by
  `Int.floor`/truncation toward zero.  Negative durations never arise in use
  (the casts would be undefined behaviour in C), and theorems that depend on
  the cast carry nonnegativity hypotheses.
* `GHashTable` (keys `g_str_hash`) becomes an association list in insertion
  order; its iteration order is unspecified in glib, the model fixes insertion
  order.
* `GST_WARNING` is modelled as a `Bool` returned next to the constructed
  playlist: `true` when the warning was emitted.
-/

/-- Constant `GST_SECOND`: one second in the nanosecond unit used for durations. -/
def GST_SECOND : ℚ := 1000000000

/-- Constant `GST_MSECOND`: one millisecond in nanoseconds. -/
def GST_MSECOND : ℚ := 1000000

/-- The anonymous playlist-type enum: `GST_M3U8_PLAYLIST_TYPE_EVENT` /
`GST_M3U8_PLAYLIST_TYPE_VOD`. -/
inductive PlaylistType where
  | EVENT
  | VOD
deriving DecidableEq

/-- Structure `GstM3U8Entry`: one media segment of a playlist. -/
structure GstM3U8Entry where
  url : String
  file : ℕ
  title : Option String
  duration : ℚ
  length : ℕ
  offset : ℕ
  discontinuous : Bool
deriving DecidableEq

/-- Structure `GstM3U8Playlist`: a media playlist.  `entries` is the `GQueue`,
head = oldest.  Fields mirror the ones the C file reads and writes;
`g_new0` zero-initialises `sequence_number` and `end_list`. -/
structure GstM3U8Playlist where
  name : String
  base_url : String
  file : ℕ
  bitrate : ℤ
  version : ℕ
  window_size : ℕ
  allow_cache : Bool
  chunked : Bool
  type : PlaylistType
  end_list : Bool
  sequence_number : ℕ
  entries : List GstM3U8Entry
deriving DecidableEq

/-- Model of `g_build_filename (base, path, NULL)`: join with a path separator. -/
def g_build_filename (base path : String) : String := base ++ "/" ++ path

/-- Constructor `gst_m3u8_entry_new`: build an entry (taking a reference on `file`). -/
def gst_m3u8_entry_new (url : String) (file : ℕ) (title : Option String)
    (duration : ℚ) (length offset : ℕ) (discontinuous : Bool) : GstM3U8Entry :=
  { url, file, title, duration, length, offset, discontinuous }

/-- Constructor `gst_m3u8_playlist_new`.  The second component models the `GST_WARNING`
diagnostic: `true` iff "Byteranges media segments are not supported for
versions < 4" was logged, in which case `chunked` is forced to `TRUE`. -/
def gst_m3u8_playlist_new (name base_url : String) (file : ℕ) (bitrate : ℤ)
    (version window_size : ℕ) (allow_cache chunked : Bool) :
    GstM3U8Playlist × Bool :=
  let warn : Bool := !chunked && decide (version < 4)
  let chunked2 : Bool := if warn then true else chunked
  ({ name, base_url, file, bitrate, version, window_size, allow_cache,
     chunked := chunked2, type := PlaylistType.EVENT, end_list := false,
     sequence_number := 0, entries := [] }, warn)

/-- The C cast `(guint) x` of a nonnegative `gfloat`: truncation.
(Negative input is undefined behaviour in C; the model yields `0`.) -/
def guintOfRat (q : ℚ) : ℕ := (Int.floor q).toNat

/-- The C cast `(gint) x`: truncation toward zero. -/
def gintOfRat (q : ℚ) : ℤ := if 0 ≤ q then Int.floor q else Int.ceil q

/-- Sum of the `duration` fields of a queue of entries (the accumulating
`gfloat duration` of `gst_m3u8_playlist_duration`). -/
def durationSum (l : List GstM3U8Entry) : ℚ := (l.map GstM3U8Entry.duration).sum

/-- Function `gst_m3u8_playlist_duration` applied to an explicit queue: the `gfloat`
sum of all entry durations, returned through the `guint` return type. -/
def queueDuration (l : List GstM3U8Entry) : ℕ := guintOfRat (durationSum l)

/-- Function `gst_m3u8_playlist_duration`: total duration of the current entries. -/
def gst_m3u8_playlist_duration (p : GstM3U8Playlist) : ℕ := queueDuration p.entries

/-- Function `gst_m3u8_playlist_target_duration`: maximum entry duration (starting
from `0`), returned through the `guint` return type.  Note: the C code does
not divide by `GST_SECOND` here. -/
def gst_m3u8_playlist_target_duration (p : GstM3U8Playlist) : ℕ :=
  guintOfRat ((p.entries.map GstM3U8Entry.duration).foldl max 0)

/-- The eviction loop of `gst_m3u8_playlist_add_entry`: while the total
duration of the current queue is `>= W`, pop the head, take a reference on
its file and `g_list_prepend` it to the output list (`acc`), then free the
entry.  Entered only when `window_size != 0`; for `W = 0` on an empty queue
the C loop would not terminate, the model returns the drained queue. -/
def evictOld (W : ℕ) : List GstM3U8Entry → List ℕ → List ℕ × List GstM3U8Entry
  | [], acc => (acc, [])
  | e :: rest, acc =>
      if W ≤ queueDuration (e :: rest) then evictOld W rest (e.file :: acc)
      else (acc, e :: rest)

/-- Function `gst_m3u8_playlist_add_entry`.  Returns the `GList *old_files` of evicted
file handles together with the updated playlist.  On a VOD playlist the C
code does `return FALSE`, i.e. the `NULL` (empty) list, with no state change. -/
def gst_m3u8_playlist_add_entry (p : GstM3U8Playlist) (path : String) (file : ℕ)
    (title : Option String) (duration : ℚ) (length offset index : ℕ)
    (discontinuous : Bool) : List ℕ × GstM3U8Playlist :=
  if p.type = PlaylistType.VOD then ([], p)
  else
    let entry := gst_m3u8_entry_new (g_build_filename p.base_url path) file
      title duration length offset discontinuous
    let r := if p.window_size ≠ 0 then evictOld p.window_size p.entries []
             else ([], p.entries)
    (r.1, { p with sequence_number := index + 1, entries := r.2 ++ [entry] })

/-- Model of glib's `g_ascii_dtostr` (`"%.17g"` with the C locale) for the
nonnegative values of interest here: values whose decimal expansion
terminates within the printed precision and that are not rendered in
exponent notation.  An integral value prints with no decimal point; the
radix character is always `.`, independent of locale. -/
def fracDigits : ℕ → ℕ → ℕ → String
  | 0, _, _ => ""
  | _ + 1, _, 0 => ""
  | fuel + 1, den, rem => toString (rem * 10 / den) ++ fracDigits fuel den (rem * 10 % den)

/-- See `fracDigits`. -/
def g_ascii_dtostr (q : ℚ) : String :=
  let sign := if q < 0 then "-" else ""
  let n := q.num.natAbs
  if n % q.den = 0 then sign ++ toString (n / q.den)
  else sign ++ toString (n / q.den) ++ "." ++ fracDigits 17 q.den (n % q.den)

/-- The body of the per-entry rendering loop of `gst_m3u8_playlist_render`
(lines 249-267 of the C file): optional discontinuity tag, the `#EXTINF`
line (integer form below version 3, `g_ascii_dtostr` form from version 3 on,
both after conversion from nanoseconds), then the URL line. -/
def render_entry_line (version : ℕ) (e : GstM3U8Entry) : String :=
  (if e.discontinuous then "#EXT-X-DISCONTINUITY\n" else "")
    ++ (if version < 3 then
          "#EXTINF:" ++ toString (gintOfRat ((e.duration + 500 * GST_MSECOND) / GST_SECOND))
            ++ "," ++ e.title.getD "" ++ "\n"
        else
          "#EXTINF:" ++ g_ascii_dtostr (e.duration / GST_SECOND)
            ++ "," ++ e.title.getD "" ++ "\n")
    ++ e.url ++ "\n"

/-- The value printed by the `#EXT-X-MEDIA-SEQUENCE:%d` line:
`playlist->sequence_number - playlist->entries->length`.  The C expression
subtracts two `guint`s and prints the result with `%d`; for
`|sequence_number - length| < 2^31` that is exactly this integer. -/
def media_sequence_value (p : GstM3U8Playlist) : ℤ :=
  (p.sequence_number : ℤ) - (p.entries.length : ℤ)

/-- Function `gst_m3u8_playlist_render`: the full playlist text. -/
def gst_m3u8_playlist_render (p : GstM3U8Playlist) : String :=
  "#EXTM3U\n"
    ++ "#EXT-X-VERSION:" ++ toString p.version ++ "\n"
    ++ "#EXT-X-ALLOW-CACHE:" ++ (if p.allow_cache then "YES" else "NO") ++ "\n"
    ++ "#EXT-X-MEDIA-SEQUENCE:" ++ toString (media_sequence_value p) ++ "\n"
    ++ "#EXT-X-TARGETDURATION:" ++ toString (gst_m3u8_playlist_target_duration p) ++ "\n"
    ++ "\n"
    ++ String.join (p.entries.map (render_entry_line p.version))
    ++ (if p.end_list then "#EXT-X-ENDLIST" else "")

/-- One segment handed to `gst_m3u8_playlist_add_entry` by the caller. -/
structure SegSpec where
  path : String
  file : ℕ
  title : Option String
  duration : ℚ
  length : ℕ
  offset : ℕ
  discontinuous : Bool

/-- Drive a sequence of `gst_m3u8_playlist_add_entry` calls the way the hls
sink does: the caller's running segment counter `n` is passed as `index` and
incremented per call.  `ev` accumulates the number of file handles returned
(entries ever evicted).  Returns the final playlist and eviction count. -/
def runAdds : GstM3U8Playlist → ℕ → ℕ → List SegSpec → GstM3U8Playlist × ℕ
  | p, _, ev, [] => (p, ev)
  | p, n, ev, s :: rest =>
      let r := gst_m3u8_playlist_add_entry p s.path s.file s.title s.duration
        s.length s.offset n s.discontinuous
      runAdds r.2 (n + 1) (ev + r.1.length) rest

/-- Structure `GstM3U8VariantPlaylist`: the master playlist.  `variants` models the
`GHashTable` keyed by `g_str_hash` as an association list in insertion
order; `playlist_str` is the cached rendered text (`NULL` before the first
update). -/
structure GstM3U8VariantPlaylist where
  name : String
  base_url : String
  file : ℕ
  variants : List (String × GstM3U8Playlist)
  playlist_str : Option String
deriving DecidableEq

/-- Constructor `gst_m3u8_variant_playlist_new`. -/
def gst_m3u8_variant_playlist_new (name base_url : String) (file : ℕ) :
    GstM3U8VariantPlaylist :=
  { name, base_url, file, variants := [], playlist_str := none }

/-- Function `render_variant`: the two lines contributed by one variant. -/
def render_variant (v : GstM3U8Playlist) : String :=
  "#EXT-X-STREAM-INF:PROGRAM-ID=1,BANDWIDTH=" ++ toString v.bitrate ++ "\n"
    ++ v.base_url ++ "/" ++ v.name ++ ".m3u8\n"

/-- The text built by `gst_m3u8_variant_playlist_update` from a variant
table: header tag then one `render_variant` block per variant. -/
def variant_playlist_text (variants : List (String × GstM3U8Playlist)) : String :=
  "#EXTM3U\n" ++ String.join (variants.map fun kv => render_variant kv.2)

/-- Function `gst_m3u8_variant_playlist_update`: rebuild the cached master text. -/
def gst_m3u8_variant_playlist_update (p : GstM3U8VariantPlaylist) :
    GstM3U8VariantPlaylist :=
  { p with playlist_str := some (variant_playlist_text p.variants) }

/-- Function `gst_m3u8_variant_playlist_get_variant`: `g_hash_table_lookup` by name. -/
def gst_m3u8_variant_playlist_get_variant (p : GstM3U8VariantPlaylist)
    (name : String) : Option GstM3U8Playlist :=
  p.variants.lookup name

/-- Function `gst_m3u8_variant_playlist_add_variant`: reject a duplicate name,
otherwise insert and rebuild the cached text. -/
def gst_m3u8_variant_playlist_add_variant (p : GstM3U8VariantPlaylist)
    (variant : GstM3U8Playlist) : Bool × GstM3U8VariantPlaylist :=
  if (p.variants.lookup variant.name).isSome then (false, p)
  else (true, gst_m3u8_variant_playlist_update
    { p with variants := p.variants ++ [(variant.name, variant)] })

/-- Function `gst_m3u8_variant_playlist_remove_variant`, exactly as written in the C
file: if the variant IS found, return `FALSE` and change nothing; if it is
NOT found, `g_hash_table_remove` of an absent key and freeing `NULL` are
no-ops, the cached text is rebuilt and `TRUE` is returned. -/
def gst_m3u8_variant_playlist_remove_variant (p : GstM3U8VariantPlaylist)
    (name : String) : Bool × GstM3U8VariantPlaylist :=
  match p.variants.lookup name with
  | some _ => (false, p)
  | none => (true, gst_m3u8_variant_playlist_update p)

/-- Function `gst_m3u8_variant_playlist_render`: `g_strdup` of the cached text. -/
def gst_m3u8_variant_playlist_render (p : GstM3U8VariantPlaylist) :
    Option String :=
  p.playlist_str

/-! ## Concrete values used by witnesses and counterexamples -/

/-- A fresh event playlist with `window_size = 1`, used as a concrete input. -/
def plFresh : GstM3U8Playlist :=
  (gst_m3u8_playlist_new "play" "http://h" 1 1000 3 1 true true).1

/-- A closed VOD playlist used as a concrete input. -/
def plVOD : GstM3U8Playlist :=
  { (gst_m3u8_playlist_new "vod" "http://h" 2 500 3 2 true true).1 with
      type := PlaylistType.VOD }

/-- Entries of duration 1 ns with file handles 10 and 20. -/
def entA : GstM3U8Entry := gst_m3u8_entry_new "u/a.ts" 10 none 1 0 0 false

/-- See `entA`. -/
def entB : GstM3U8Entry := gst_m3u8_entry_new "u/b.ts" 20 none 1 0 0 false

/-- A window-1 playlist holding `entA, entB` (total duration 2 ≥ 1, so the
next append evicts both). -/
def plWin1 : GstM3U8Playlist :=
  { plFresh with base_url := "u", entries := [entA, entB], sequence_number := 2 }

/-- An entry whose duration 5 ns is at least the whole window. -/
def entC : GstM3U8Entry := gst_m3u8_entry_new "u/x.ts" 40 none 5 0 0 false

/-- A window-1 playlist holding only `entC`. -/
def plBig : GstM3U8Playlist :=
  { plFresh with base_url := "u", entries := [entC], sequence_number := 1 }

/-- A 2.0-second entry: duration 2000000000 in the nanosecond unit that the
renderer's `/ GST_SECOND` conversions presuppose. -/
def entNs : GstM3U8Entry := gst_m3u8_entry_new "u/s.ts" 50 none 2000000000 0 0 false

/-- An unbounded-window playlist holding only `entNs`. -/
def plNs : GstM3U8Playlist :=
  { plFresh with
      base_url := "u", window_size := 0, entries := [entNs],
      sequence_number := 1 }

/-- A 5.0-second entry (5000000000 ns). -/
def entFive : GstM3U8Entry := gst_m3u8_entry_new "seg.ts" 60 none 5000000000 0 0 false

/-- A media playlist named "low", and a second distinct one with the same
name. -/
def plLow : GstM3U8Playlist :=
  (gst_m3u8_playlist_new "low" "http://h" 3 128000 3 0 true true).1

/-- See `plLow`. -/
def plLow2 : GstM3U8Playlist :=
  (gst_m3u8_playlist_new "low" "http://h2" 4 256000 3 0 true true).1

/-- A variant registry holding the single variant "low". -/
def regLow : GstM3U8VariantPlaylist :=
  (gst_m3u8_variant_playlist_add_variant
    (gst_m3u8_variant_playlist_new "master" "http://h" 8) plLow).2

/-! ## Helper lemmas -/

theorem durationSum_cons (e : GstM3U8Entry) (l : List GstM3U8Entry) :
    durationSum (e :: l) = e.duration + durationSum l := by
  simp [durationSum]

theorem durationSum_append (a b : List GstM3U8Entry) :
    durationSum (a ++ b) = durationSum a + durationSum b := by
  simp [durationSum]

theorem durationSum_nonneg {l : List GstM3U8Entry}
    (h : ∀ e ∈ l, 0 ≤ e.duration) : 0 ≤ durationSum l := by
  induction l with
  | nil => simp [durationSum]
  | cons e t ih =>
      rw [durationSum_cons]
      have h1 := h e (by simp)
      have h2 := ih fun x hx => h x (by simp [hx])
      linarith

theorem durationSum_lt_of_queueDuration_lt {W : ℕ} {l : List GstM3U8Entry}
    (hq : queueDuration l < W) (h : ∀ e ∈ l, 0 ≤ e.duration) :
    durationSum l < (W : ℚ) := by
  have h0 : 0 ≤ durationSum l := durationSum_nonneg h
  have hf : 0 ≤ Int.floor (durationSum l) := Int.floor_nonneg.mpr h0
  have h1 : Int.floor (durationSum l) + 1 ≤ (W : ℤ) := by
    unfold queueDuration guintOfRat at hq
    omega
  calc durationSum l < Int.floor (durationSum l) + 1 := Int.lt_floor_add_one _
    _ ≤ (W : ℚ) := by exact_mod_cast h1

theorem evictOld_spec (W : ℕ) (l : List GstM3U8Entry) (acc : List ℕ) :
    ∃ k, k ≤ l.length ∧
      evictOld W l acc
        = (((l.take k).map GstM3U8Entry.file).reverse ++ acc, l.drop k) := by
  induction l generalizing acc with
  | nil => exact ⟨0, by simp, by simp [evictOld]⟩
  | cons e t ih =>
      by_cases hc : W ≤ queueDuration (e :: t)
      · obtain ⟨k, hk, he⟩ := ih (e.file :: acc)
        refine ⟨k + 1, by simpa using hk, ?_⟩
        simp [evictOld, hc, he]
      · exact ⟨0, by simp, by simp [evictOld, hc]⟩

theorem evictOld_snd_duration_lt {W : ℕ} (hW : 0 < W) (l : List GstM3U8Entry)
    (acc : List ℕ) : queueDuration (evictOld W l acc).2 < W := by
  induction l generalizing acc with
  | nil => simpa [evictOld, queueDuration, durationSum, guintOfRat] using hW
  | cons e t ih =>
      by_cases hc : W ≤ queueDuration (e :: t)
      · simpa [evictOld, hc] using ih (e.file :: acc)
      · simpa [evictOld, hc] using Nat.lt_of_not_le hc

theorem add_entry_structure (p : GstM3U8Playlist) (path : String) (file : ℕ)
    (title : Option String) (d : ℚ) (len off idx : ℕ) (disc : Bool)
    (h : p.type ≠ PlaylistType.VOD) :
    ∃ k, k ≤ p.entries.length ∧ (p.window_size = 0 → k = 0) ∧
      gst_m3u8_playlist_add_entry p path file title d len off idx disc
        = (((p.entries.take k).map GstM3U8Entry.file).reverse,
           { p with sequence_number := idx + 1,
                    entries := p.entries.drop k
                      ++ [gst_m3u8_entry_new (g_build_filename p.base_url path)
                            file title d len off disc] }) := by
  by_cases hw : p.window_size = 0
  · refine ⟨0, Nat.zero_le _, fun _ => rfl, ?_⟩
    simp [gst_m3u8_playlist_add_entry, h, hw]
  · obtain ⟨k, hk, he⟩ := evictOld_spec p.window_size p.entries []
    refine ⟨k, hk, fun h0 => absurd h0 hw, ?_⟩
    simp [gst_m3u8_playlist_add_entry, h, hw, he]

/-! ## Claim theorems -/

/-- C1: for every event playlist with `window_size = W > 0` (and nonnegative
entry durations, the only case in which the C `guint` cast is defined),
immediately after `gst_m3u8_playlist_add_entry` the total duration of the
remaining entries is strictly below `W` plus the duration of the just-added
entry: eviction runs against the pre-append total, so the bound can only be
overshot by the new entry itself. -/
theorem add_entry_total_duration_lt (p : GstM3U8Playlist) (path : String)
    (file : ℕ) (title : Option String) (d : ℚ) (len off idx : ℕ) (disc : Bool)
    (hEvent : p.type = PlaylistType.EVENT) (hW : 0 < p.window_size)
    (hpos : ∀ e ∈ p.entries, 0 ≤ e.duration) :
    durationSum (gst_m3u8_playlist_add_entry p path file title d len off idx
        disc).2.entries < (p.window_size : ℚ) + d := by
  have hv : ¬(p.type = PlaylistType.VOD) := by rw [hEvent]; intro hh; cases hh
  have hw : p.window_size ≠ 0 := Nat.pos_iff_ne_zero.mp hW
  obtain ⟨k, hk, he⟩ := evictOld_spec p.window_size p.entries []
  have hq : queueDuration (evictOld p.window_size p.entries []).2
      < p.window_size := evictOld_snd_duration_lt hW p.entries []
  rw [he] at hq
  have hpos2 : ∀ e ∈ p.entries.drop k, 0 ≤ e.duration :=
    fun e hx => hpos e (List.drop_subset k p.entries hx)
  have hlt : durationSum (p.entries.drop k) < (p.window_size : ℚ) :=
    durationSum_lt_of_queueDuration_lt hq hpos2
  simp only [gst_m3u8_playlist_add_entry, hv, if_false, if_neg, hw, ne_eq,
    not_false_iff, if_true, ite_true, ite_false, he]
  simp only [durationSum_append]
  have : durationSum [gst_m3u8_entry_new (g_build_filename p.base_url path)
      file title d len off disc] = d := by
    simp [durationSum, gst_m3u8_entry_new]
  rw [this]
  exact add_lt_add_right hlt d

/-- Witness for `add_entry_total_duration_lt` at a concrete input. -/
theorem add_entry_total_duration_lt_witness :
    durationSum (gst_m3u8_playlist_add_entry plFresh "a.ts" 7 none 1 0 0 0
        false).2.entries < (plFresh.window_size : ℚ) + 1 :=
  add_entry_total_duration_lt plFresh "a.ts" 7 none 1 0 0 0 false rfl
    (by decide) (by intro e he; simp [plFresh, gst_m3u8_playlist_new] at he)

/-- C6: `gst_m3u8_playlist_add_entry` on a VOD playlist is a no-op: no field
of the playlist changes and the function signals rejection by `return FALSE`,
the `NULL`/empty `GList`. -/
theorem add_entry_vod_noop (p : GstM3U8Playlist) (path : String) (file : ℕ)
    (title : Option String) (d : ℚ) (len off idx : ℕ) (disc : Bool)
    (h : p.type = PlaylistType.VOD) :
    gst_m3u8_playlist_add_entry p path file title d len off idx disc
      = ([], p) := by
  simp [gst_m3u8_playlist_add_entry, h]

/-- Witness for `add_entry_vod_noop` at a concrete input. -/
theorem add_entry_vod_noop_witness :
    gst_m3u8_playlist_add_entry plVOD "b.ts" 9 none 2 0 0 5 false
      = ([], plVOD) :=
  add_entry_vod_noop plVOD "b.ts" 9 none 2 0 0 5 false rfl

/-- C7: `gst_m3u8_playlist_new` never fails; the playlist's `chunked` flag is
the requested one except that requesting `chunked = false` below version 4 is
silently corrected to `true`, and the warning diagnostic is emitted exactly
in that case. -/
theorem new_chunked_version_gate (name base_url : String) (file : ℕ)
    (bitrate : ℤ) (version window_size : ℕ) (allow_cache chunked : Bool) :
    (gst_m3u8_playlist_new name base_url file bitrate version window_size
        allow_cache chunked).1.chunked = (chunked || decide (version < 4)) ∧
    (gst_m3u8_playlist_new name base_url file bitrate version window_size
        allow_cache chunked).2 = (!chunked && decide (version < 4)) := by
  cases chunked <;> by_cases hv : version < 4 <;>
    simp [gst_m3u8_playlist_new, hv]

/-- C2 (amended): on a non-VOD playlist with `window_size ≠ 0`,
`gst_m3u8_playlist_add_entry` returns exactly the file handles of the `k`
entries evicted during the call — one owning reference per evicted entry,
possibly none — but, because the loop collects them with `g_list_prepend`,
in reverse eviction order (newest-evicted first); the queue afterwards is
the surviving suffix with the new entry appended. -/
theorem add_entry_evicted_files (p : GstM3U8Playlist) (path : String)
    (file : ℕ) (title : Option String) (d : ℚ) (len off idx : ℕ) (disc : Bool)
    (hv : p.type ≠ PlaylistType.VOD) (hw : p.window_size ≠ 0) :
    ∃ k, k ≤ p.entries.length ∧
      (gst_m3u8_playlist_add_entry p path file title d len off idx disc).1
        = ((p.entries.take k).map GstM3U8Entry.file).reverse ∧
      (gst_m3u8_playlist_add_entry p path file title d len off idx disc).2.entries
        = p.entries.drop k
          ++ [gst_m3u8_entry_new (g_build_filename p.base_url path)
                file title d len off disc] := by
  obtain ⟨k, hk, -, he⟩ :=
    add_entry_structure p path file title d len off idx disc hv
  exact ⟨k, hk, by rw [he], by rw [he]⟩

/-- Witness for `add_entry_evicted_files` at a concrete input. -/
theorem add_entry_evicted_files_witness :
    ∃ k, k ≤ plWin1.entries.length ∧
      (gst_m3u8_playlist_add_entry plWin1 "c.ts" 30 none 1 0 0 2 false).1
        = ((plWin1.entries.take k).map GstM3U8Entry.file).reverse ∧
      (gst_m3u8_playlist_add_entry plWin1 "c.ts" 30 none 1 0 0 2 false).2.entries
        = plWin1.entries.drop k
          ++ [gst_m3u8_entry_new (g_build_filename plWin1.base_url "c.ts")
                30 none 1 0 0 false] :=
  add_entry_evicted_files plWin1 "c.ts" 30 none 1 0 0 2 false
    (by decide) (by decide)

/-- Counterexample to C2 as stated: adding to `plWin1` evicts `entA` then
`entB` (oldest first), yet the returned list is `[20, 10]` — newest-evicted
first — not the oldest-first `[10, 20]`. -/
theorem add_entry_eviction_order_cex :
    (gst_m3u8_playlist_add_entry plWin1 "c.ts" 30 none 1 0 0 2 false).1
        = [20, 10] ∧ [20, 10] ≠ ([10, 20] : List ℕ) := by
  constructor
  · norm_num [gst_m3u8_playlist_add_entry, plWin1, plFresh, entA, entB,
      evictOld, queueDuration, durationSum, guintOfRat, gst_m3u8_entry_new,
      gst_m3u8_playlist_new, g_build_filename]
    decide
  · decide

/-- C10 (amended): on a non-VOD playlist the newly constructed entry is
always appended to the tail and is never itself evicted during the call —
the eviction loop inspects only the pre-append queue — so the queue length
afterwards is `(pre-length - k) + 1` where `k` is the number of entries
evicted; it increases by exactly one only when no eviction occurs, in
particular always when `window_size = 0`. -/
theorem add_entry_appends_tail (p : GstM3U8Playlist) (path : String)
    (file : ℕ) (title : Option String) (d : ℚ) (len off idx : ℕ) (disc : Bool)
    (hv : p.type ≠ PlaylistType.VOD) :
    ∃ k, k ≤ p.entries.length ∧ (p.window_size = 0 → k = 0) ∧
      (gst_m3u8_playlist_add_entry p path file title d len off idx disc).2.entries
        = p.entries.drop k
          ++ [gst_m3u8_entry_new (g_build_filename p.base_url path)
                file title d len off disc] ∧
      (gst_m3u8_playlist_add_entry p path file title d len off idx disc).2.entries.length
        = p.entries.length - k + 1 := by
  obtain ⟨k, hk, h0, he⟩ :=
    add_entry_structure p path file title d len off idx disc hv
  refine ⟨k, hk, h0, by rw [he], ?_⟩
  rw [he]
  simp

/-- Witness for `add_entry_appends_tail` at a concrete input. -/
theorem add_entry_appends_tail_witness :
    ∃ k, k ≤ plBig.entries.length ∧ (plBig.window_size = 0 → k = 0) ∧
      (gst_m3u8_playlist_add_entry plBig "y.ts" 41 none 1 0 0 1 false).2.entries
        = plBig.entries.drop k
          ++ [gst_m3u8_entry_new (g_build_filename plBig.base_url "y.ts")
                41 none 1 0 0 false] ∧
      (gst_m3u8_playlist_add_entry plBig "y.ts" 41 none 1 0 0 1 false).2.entries.length
        = plBig.entries.length - k + 1 :=
  add_entry_appends_tail plBig "y.ts" 41 none 1 0 0 1 false (by decide)

/-- Counterexample to C10 as stated: adding to `plBig` (one entry of
duration 5 in a window of 1) evicts that entry, so the queue length stays
at 1 rather than increasing by exactly one. -/
theorem add_entry_length_cex :
    (gst_m3u8_playlist_add_entry plBig "y.ts" 41 none 1 0 0 1 false).2.entries.length
        = plBig.entries.length ∧
      plBig.entries.length = 1 ∧ (1 : ℕ) ≠ 1 + 1 := by
  refine ⟨?_, by decide, by decide⟩
  norm_num [gst_m3u8_playlist_add_entry, plBig, plFresh, entC,
    evictOld, queueDuration, durationSum, guintOfRat, gst_m3u8_entry_new,
    gst_m3u8_playlist_new, g_build_filename]
  decide

theorem runAdds_invariant (l : List SegSpec) :
    ∀ (p : GstM3U8Playlist) (n ev : ℕ), p.type = PlaylistType.EVENT →
      p.sequence_number = n → p.entries.length + ev = n →
      (runAdds p n ev l).1.type = PlaylistType.EVENT ∧
      (runAdds p n ev l).1.sequence_number = n + l.length ∧
      (runAdds p n ev l).1.entries.length + (runAdds p n ev l).2
        = n + l.length := by
  induction l with
  | nil =>
      intro p n ev ht hs hl
      exact ⟨ht, by simpa [runAdds] using hs, by simpa [runAdds] using hl⟩
  | cons s rest ih =>
      intro p n ev ht hs hl
      have hv : ¬(p.type = PlaylistType.VOD) := by rw [ht]; intro hh; cases hh
      obtain ⟨k, hk, -, he⟩ := add_entry_structure p s.path s.file s.title
        s.duration s.length s.offset n s.discontinuous hv
      have hstep : runAdds p n ev (s :: rest)
          = runAdds (gst_m3u8_playlist_add_entry p s.path s.file s.title
              s.duration s.length s.offset n s.discontinuous).2 (n + 1)
            (ev + (gst_m3u8_playlist_add_entry p s.path s.file s.title
              s.duration s.length s.offset n s.discontinuous).1.length) rest := rfl
      have ht2 : (gst_m3u8_playlist_add_entry p s.path s.file s.title
          s.duration s.length s.offset n s.discontinuous).2.type
          = PlaylistType.EVENT := by rw [he]; exact ht
      have hs2 : (gst_m3u8_playlist_add_entry p s.path s.file s.title
          s.duration s.length s.offset n s.discontinuous).2.sequence_number
          = n + 1 := by rw [he]
      have hl2 : (gst_m3u8_playlist_add_entry p s.path s.file s.title
          s.duration s.length s.offset n s.discontinuous).2.entries.length
          + (ev + (gst_m3u8_playlist_add_entry p s.path s.file s.title
              s.duration s.length s.offset n s.discontinuous).1.length)
          = n + 1 := by
        rw [he]
        simp [Nat.min_eq_left hk]
        omega
      have h2 := ih _ (n + 1) _ ht2 hs2 hl2
      rw [hstep]
      refine ⟨h2.1, ?_, ?_⟩
      · rw [h2.2.1]; simp; omega
      · rw [h2.2.2]; simp; omega

/-- C3: for every playlist reached from `gst_m3u8_playlist_new` by a
sequence of `gst_m3u8_playlist_add_entry` calls carrying the caller's
running segment counter as `index`, the value rendered on the
`#EXT-X-MEDIA-SEQUENCE` line — `sequence_number - entries.length`, see
`media_sequence_value` and `gst_m3u8_playlist_render` — equals the total
number of entries ever evicted. -/
theorem media_sequence_counts_evicted (name base_url : String) (file : ℕ)
    (bitrate : ℤ) (version window_size : ℕ) (allow_cache chunked : Bool)
    (l : List SegSpec) :
    media_sequence_value
        (runAdds (gst_m3u8_playlist_new name base_url file bitrate version
            window_size allow_cache chunked).1 0 0 l).1
      = ((runAdds (gst_m3u8_playlist_new name base_url file bitrate version
            window_size allow_cache chunked).1 0 0 l).2 : ℤ) := by
  obtain ⟨-, hs, hl⟩ := runAdds_invariant l
    (gst_m3u8_playlist_new name base_url file bitrate version window_size
      allow_cache chunked).1 0 0 rfl rfl rfl
  unfold media_sequence_value
  omega

/-- C4 (code bug): `gst_m3u8_playlist_target_duration` returns the floor of
the maximum raw duration with no `/ GST_SECOND` conversion, so the
`#EXT-X-TARGETDURATION` tag for a single 2.0-second entry carries
2000000000, not 2 — although the very same renderer converts the same
entry's duration to seconds for its `#EXTINF` line. -/
theorem target_duration_misses_seconds_conversion :
    gst_m3u8_playlist_target_duration plNs = 2000000000 ∧
    render_entry_line 3 entNs = "#EXTINF:2,\nu/s.ts\n" ∧
    (2000000000 : ℕ) ≠ 2 := by
  refine ⟨?_, ?_, by decide⟩
  · have hm : max (0 : ℚ) 2000000000 = 2000000000 := max_eq_right (by norm_num)
    norm_num [gst_m3u8_playlist_target_duration, plNs, plFresh, entNs,
      guintOfRat, gst_m3u8_entry_new, gst_m3u8_playlist_new, hm]
    decide
  · have h : entNs.duration / GST_SECOND = 2 := by
      norm_num [entNs, gst_m3u8_entry_new, GST_SECOND]
    simp only [render_entry_line, h]
    decide

/-- Counterexample to C5 as stated: at version 4 the 5.0-second `entFive`
renders `#EXTINF:5,` — `g_ascii_dtostr` prints the shortest form — not the
two-decimal fixed-point `#EXTINF:5.00,` the claim requires. -/
theorem extinf_two_decimals_cex :
    render_entry_line 4 entFive = "#EXTINF:5,\nseg.ts\n" ∧
      "#EXTINF:5,\nseg.ts\n" ≠ "#EXTINF:5.00,\nseg.ts\n" := by
  refine ⟨?_, by decide⟩
  have h : entFive.duration / GST_SECOND = 5 := by
    norm_num [entFive, gst_m3u8_entry_new, GST_SECOND]
  simp only [render_entry_line, h]
  decide

/-- Printing a natural number through `g_ascii_dtostr` yields it with no decimal point
(and no locale-dependent radix character can occur). -/
theorem g_ascii_dtostr_natCast (n : ℕ) : g_ascii_dtostr ((n : ℚ)) = toString n := by
  unfold g_ascii_dtostr
  rw [Rat.num_natCast, Rat.den_natCast]
  simp [Int.natAbs_ofNat, Nat.mod_one, Nat.div_one,
    not_lt.mpr (Nat.cast_nonneg (α := ℚ) n)]

/-- C5 (amended): the `#EXTINF` duration is rendered as rounded integer
seconds with no decimal point below version 3, and from version 3 on as
`g_ascii_dtostr` of the seconds value — locale-independent `.` radix but
shortest form, with no fixed two-decimal padding.  In particular an entry
whose duration is a whole number `n` of seconds renders `#EXTINF:n,` at
every version: duration 5.0 s gives `#EXTINF:5,` at version 2 and also at
version 4. -/
theorem extinf_integral_format (v : ℕ) (e : GstM3U8Entry) (n : ℕ)
    (hd : e.duration = (n : ℚ) * GST_SECOND) (hdisc : e.discontinuous = false) :
    render_entry_line v e
      = "#EXTINF:" ++ toString n ++ "," ++ e.title.getD "" ++ "\n"
        ++ e.url ++ "\n" := by
  unfold render_entry_line
  rw [hdisc]
  by_cases hv : v < 3
  · have harg : (e.duration + 500 * GST_MSECOND) / GST_SECOND = (n : ℚ) + 1/2 := by
      rw [hd]
      unfold GST_SECOND GST_MSECOND
      rw [div_eq_iff (by norm_num : (1000000000 : ℚ) ≠ 0)]
      ring
    have hfl : gintOfRat ((n : ℚ) + 1/2) = (n : ℤ) := by
      unfold gintOfRat
      rw [if_pos (by positivity)]
      rw [show ((n : ℚ) + 1/2) = ((n : ℤ) : ℚ) + 1/2 by push_cast; ring]
      rw [Int.floor_int_add]
      norm_num
    rw [harg, hfl]
    have hts : toString ((n : ℤ)) = toString n := rfl
    simp only [hv, if_true, ite_true, Bool.false_eq_true, if_false, hts]
    simp [String.append_assoc]
  · have harg2 : e.duration / GST_SECOND = (n : ℚ) := by
      rw [hd]
      unfold GST_SECOND
      field_simp
    rw [harg2, g_ascii_dtostr_natCast]
    simp only [hv, ite_false, Bool.false_eq_true, if_false]
    simp [String.append_assoc]

/-- Witness for `extinf_integral_format` at a concrete input: the same
5.0-second entry at version 2. -/
theorem extinf_integral_format_witness :
    render_entry_line 2 entFive
      = "#EXTINF:" ++ toString 5 ++ "," ++ entFive.title.getD "" ++ "\n"
        ++ entFive.url ++ "\n" :=
  extinf_integral_format 2 entFive 5
    (by norm_num [entFive, gst_m3u8_entry_new, GST_SECOND]) rfl

theorem lookup_append_singleton {β : Type} (l : List (String × β)) (k : String)
    (x : β) (h : l.lookup k = none) : (l ++ [(k, x)]).lookup k = some x := by
  induction l with
  | nil => simp [List.lookup]
  | cons a t ih =>
      rw [List.cons_append]
      by_cases hk : k == a.1
      · simp [List.lookup, hk] at h
      · simp only [List.lookup, hk] at h ⊢
        exact ih h

/-- C8: `gst_m3u8_variant_playlist_add_variant` is first-write-wins: with a
variant of the same name already registered it returns `FALSE` and changes
nothing (lookup still yields the original playlist); otherwise it returns
`TRUE`, registers the variant under its name, and fully re-renders the
cached master text. -/
theorem add_variant_first_write_wins (r : GstM3U8VariantPlaylist)
    (v : GstM3U8Playlist) :
    ((gst_m3u8_variant_playlist_get_variant r v.name).isSome →
      gst_m3u8_variant_playlist_add_variant r v = (false, r)) ∧
    (gst_m3u8_variant_playlist_get_variant r v.name = none →
      (gst_m3u8_variant_playlist_add_variant r v).1 = true ∧
      gst_m3u8_variant_playlist_get_variant
          (gst_m3u8_variant_playlist_add_variant r v).2 v.name = some v ∧
      (gst_m3u8_variant_playlist_add_variant r v).2.playlist_str
        = some (variant_playlist_text (r.variants ++ [(v.name, v)]))) := by
  unfold gst_m3u8_variant_playlist_get_variant gst_m3u8_variant_playlist_add_variant
  constructor
  · intro h
    rw [if_pos h]
  · intro h
    rw [h]
    refine ⟨rfl, ?_, rfl⟩
    show (r.variants ++ [(v.name, v)]).lookup v.name = some v
    exact lookup_append_singleton r.variants v.name v h

/-- Witness for `add_variant_first_write_wins` at a concrete input: a second
"low" is rejected without mutation, and lookup still yields the original. -/
theorem add_variant_first_write_wins_witness :
    gst_m3u8_variant_playlist_add_variant regLow plLow2 = (false, regLow) ∧
    gst_m3u8_variant_playlist_get_variant regLow "low" = some plLow :=
  ⟨(add_variant_first_write_wins regLow plLow2).1 (by decide), by decide⟩

/-- C9: the found/not-found branches of
`gst_m3u8_variant_playlist_remove_variant` are inverted: with the name
present it returns `FALSE` and removes nothing; with the name absent it
returns `TRUE` (success) without removing any variant. -/
theorem remove_variant_inverted (r : GstM3U8VariantPlaylist) (name : String) :
    ((gst_m3u8_variant_playlist_get_variant r name).isSome →
      gst_m3u8_variant_playlist_remove_variant r name = (false, r)) ∧
    (gst_m3u8_variant_playlist_get_variant r name = none →
      (gst_m3u8_variant_playlist_remove_variant r name).1 = true ∧
      (gst_m3u8_variant_playlist_remove_variant r name).2.variants
        = r.variants) := by
  unfold gst_m3u8_variant_playlist_get_variant
    gst_m3u8_variant_playlist_remove_variant
  constructor
  · intro h
    obtain ⟨x, hx⟩ := Option.isSome_iff_exists.mp h
    rw [hx]
  · intro h
    rw [h]
    exact ⟨rfl, rfl⟩

/-- Witness for `remove_variant_inverted` at concrete inputs: removing the
present "low" fails and removes nothing; removing the absent "hi" reports
success and also removes nothing. -/
theorem remove_variant_inverted_witness :
    gst_m3u8_variant_playlist_remove_variant regLow "low" = (false, regLow) ∧
    (gst_m3u8_variant_playlist_remove_variant regLow "hi").1 = true ∧
    (gst_m3u8_variant_playlist_remove_variant regLow "hi").2.variants
      = regLow.variants :=
  ⟨(remove_variant_inverted regLow "low").1 (by decide),
   ((remove_variant_inverted regLow "hi").2 (by decide)).1,
   ((remove_variant_inverted regLow "hi").2 (by decide)).2⟩
